import Mathlib

set_option maxHeartbeats 1000000

namespace Stacklook

/-! Shallow embedding of the Stacklook KernelShark plugin
(`src/SlButton.cpp`, `src/Stacklook.cpp`, `src/SlPrevState.cpp`,
`src/SlConfig.cpp`/`.hpp`, `src/stacklook.c`).

Conventions of the embedding:
* C++ `std::string` contents are `List Char`.
* `std::size_t` values are `Nat`; where the source relies on unsigned
  wrap-around (`npos + 3`, `npos - name_start`) the arithmetic is done with
  an explicit `% 2 ^ 64`; `std::string::npos` is `NPOS = 2 ^ 64 - 1`.
* `std::string::find(pat, pos)` returns the smallest occurrence position
  `≥ pos`, or `npos`; it is embedded as `strFind` returning `Option Nat`
  (`none` = `npos`), with `findD` recovering the raw `size_t` value.
* `std::string::substr(pos, count)` throws `std::out_of_range` for
  `pos > size()`; it is embedded as `substr` returning `Option`, `none`
  standing for the thrown exception, which every modelled caller propagates.
* `QString(const char*)` built from `std::string::c_str()` reads up to the
  first NUL byte; it is embedded as `cstr` (a `takeWhile`).
-/

/-- Frame-marker token `"=>"` used by `_get_stack_start_pos` and
`_get_top_three_from_start` (`SlButton.cpp`). -/
def ARROW : List Char := ['=', '>']

/-- Token `"=> "` whose end delimits the start of a frame name in
`_prettify_stack_item` (`SlButton.cpp`). -/
def ARROW_SP : List Char := ['=', '>', ' ']

/-- Token `" ("` that starts the address suffix of a frame line in
`_prettify_stack_item` (`SlButton.cpp`). -/
def PAREN_SP : List Char := [' ', '(']

/-- Marker `" ==>"` located inside a sched_switch entry's info string by
`get_switch_prev_state` (`SlPrevState.cpp`). -/
def SWMARK : List Char := [' ', '=', '=', '>']

/-- Placeholder `"-"` filling the three preview slots (`SlButton.cpp`). -/
def DASH : List Char := ['-']

/-- Ellipsis `"..."` appended by `_prettify_stack_item` on truncation. -/
def ELLIPSIS : List Char := ['.', '.', '.']

/-- Modulus of `std::size_t` arithmetic on the 64-bit host. -/
def SIZE_MOD : Nat := 2 ^ 64

/-- Embedding of `std::string::npos`. -/
def NPOS : Nat := 2 ^ 64 - 1

/-- Boolean test that `pat` is an initial segment of `l`; used to say that a
pattern occurs at a position of a string. -/
def listStartsWith : List Char → List Char → Bool
  | [], _ => true
  | _ :: _, [] => false
  | p :: ps, c :: cs => p == c && listStartsWith ps cs

/-- All positions (in increasing order) at which `pat` occurs in the text.
Used to embed `std::string::find` for the nonempty literal patterns of the
plugin. -/
def occPositions (pat : List Char) : List Char → List Nat
  | [] => []
  | c :: rest =>
      (if listStartsWith pat (c :: rest) then [0] else [])
        ++ (occPositions pat rest).map (· + 1)

/-- Embedding of `std::string::find(pat, s)`: the smallest position `≥ s`
where `pat` occurs, `none` for `npos`. -/
def strFind (pat l : List Char) (s : Nat) : Option Nat :=
  (occPositions pat l).find? (fun p => decide (s ≤ p))

/-- Raw `size_t` value of a `find` call (`npos` when there is no match). -/
def findD (pat l : List Char) (s : Nat) : Nat :=
  (strFind pat l s).getD NPOS

/-- Embedding of `std::string::substr(pos, count)`: `none` models the
`std::out_of_range` exception thrown when `pos > size()`; otherwise at most
`count` characters starting at `pos`. -/
def substr (l : List Char) (pos count : Nat) : Option (List Char) :=
  if pos ≤ l.length then some ((l.drop pos).take count) else none

/-- Embedding of `QString(const char*)` applied to `std::string::c_str()`:
the characters up to the first NUL byte. -/
def cstr (l : List Char) : List Char :=
  l.takeWhile (fun c => c != Char.ofNat 0)

/-- Filter keeping the positions `≥ s`; abbreviation used throughout the
`find`-related lemmas. -/
def geFilter (s : Nat) (ps : List Nat) : List Nat :=
  ps.filter (fun q => decide (s ≤ q))

-- Basic lemmas about the string-scanning primitives.

theorem listStartsWith_length {pat l : List Char}
    (h : listStartsWith pat l = true) : pat.length ≤ l.length := by
  induction pat generalizing l with
  | nil => simp
  | cons p ps ih =>
    cases l with
    | nil => simp [listStartsWith] at h
    | cons c cs =>
      simp only [listStartsWith, Bool.and_eq_true] at h
      simpa using ih h.2

theorem mem_occPositions {pat l : List Char} {p : Nat} (hpat : pat ≠ []) :
    p ∈ occPositions pat l ↔ listStartsWith pat (l.drop p) = true := by
  induction l generalizing p with
  | nil =>
    simp only [occPositions, List.not_mem_nil, false_iff, List.drop_nil]
    cases pat with
    | nil => exact absurd rfl hpat
    | cons a as => simp [listStartsWith]
  | cons c rest ih =>
    simp only [occPositions, List.mem_append, List.mem_map]
    cases p with
    | zero =>
      constructor
      · rintro (h | ⟨q, _, hq⟩)
        · by_cases hs : listStartsWith pat (c :: rest) = true
          · simpa using hs
          · simp [hs] at h
        · omega
      · intro h
        left
        simp only [List.drop_zero] at h
        simp [h]
    | succ q =>
      constructor
      · rintro (h | ⟨q₂, hq₂, heq⟩)
        · by_cases hs : listStartsWith pat (c :: rest) = true <;> simp [hs] at h
        · have : q₂ = q := by omega
          subst this
          simpa using (ih.mp hq₂)
      · intro h
        right
        exact ⟨q, ih.mpr (by simpa using h), rfl⟩

theorem occPositions_pairwise (pat l : List Char) :
    (occPositions pat l).Pairwise (· < ·) := by
  induction l with
  | nil => simp [occPositions]
  | cons c rest ih =>
    simp only [occPositions]
    refine List.pairwise_append.mpr ⟨?_, ?_, ?_⟩
    · by_cases hs : listStartsWith pat (c :: rest) = true <;> simp [hs]
    · exact (List.pairwise_map).mpr (by simpa using ih)
    · intro a ha b hb
      rcases List.mem_map.mp hb with ⟨q, _, rfl⟩
      by_cases hs : listStartsWith pat (c :: rest) = true <;> simp [hs] at ha
      omega

theorem occPositions_le_length {pat l : List Char} {p : Nat}
    (hpat : pat ≠ []) (h : p ∈ occPositions pat l) :
    p + pat.length ≤ l.length := by
  have hsw := (mem_occPositions hpat).mp h
  have hlen := listStartsWith_length hsw
  have hdrop : (l.drop p).length = l.length - p := List.length_drop p l
  rw [hdrop] at hlen
  rcases pat with _ | ⟨a, as⟩
  · exact absurd rfl hpat
  · simp only [List.length_cons] at hlen ⊢
    omega

theorem find?_eq_head?_filter {α : Type} (p : α → Bool) (l : List α) :
    l.find? p = (l.filter p).head? := by
  induction l with
  | nil => rfl
  | cons a as ih =>
    by_cases h : p a = true
    · rw [List.find?_cons_of_pos _ h, List.filter_cons_of_pos h, List.head?_cons]
    · rw [List.find?_cons_of_neg _ (by simpa using h),
        List.filter_cons_of_neg (by simpa using h), ih]

theorem strFind_eq_geFilter_head (pat l : List Char) (s : Nat) :
    strFind pat l s = (geFilter s (occPositions pat l)).head? :=
  find?_eq_head?_filter _ _

theorem mem_geFilter {s : Nat} {ps : List Nat} {q : Nat} :
    q ∈ geFilter s ps ↔ q ∈ ps ∧ s ≤ q := by
  simp [geFilter, List.mem_filter]

theorem geFilter_tail {s p : Nat} {ps t : List Nat}
    (hs : ps.Pairwise (· < ·)) (h : geFilter s ps = p :: t) :
    geFilter (p + 1) ps = t := by
  induction ps generalizing t with
  | nil => simp [geFilter] at h
  | cons a rest ih =>
    rcases List.pairwise_cons.mp hs with ⟨ha, hrest⟩
    by_cases hsa : s ≤ a
    · have h2 : a :: geFilter s rest = p :: t := by
        simpa [geFilter, List.filter_cons, hsa] using h
      obtain ⟨rfl, rfl⟩ : a = p ∧ geFilter s rest = t := by
        exact ⟨(List.cons.injEq _ _ _ _ ▸ h2).1, (List.cons.injEq _ _ _ _ ▸ h2).2⟩
      have hnot : ¬(a + 1 ≤ a) := by omega
      have : geFilter (a + 1) rest = geFilter s rest := by
        apply List.filter_congr
        intro q hq
        have := ha q hq
        simp only [decide_eq_decide]
        omega
      simpa [geFilter, List.filter_cons, hnot] using this
    · have h2 : geFilter s rest = p :: t := by
        simpa [geFilter, List.filter_cons, hsa] using h
      have hp : p ∈ rest := by
        have : p ∈ geFilter s rest := by simp [h2]
        exact (mem_geFilter.mp this).1
      have hap : a < p := ha p hp
      have hnot : ¬(p + 1 ≤ a) := by omega
      have := ih hrest h2
      simpa [geFilter, List.filter_cons, hnot] using this

theorem geFilter_head_self {s p : Nat} {ps t : List Nat}
    (hs : ps.Pairwise (· < ·)) (h : geFilter s ps = p :: t) :
    geFilter p ps = p :: t := by
  induction ps generalizing t with
  | nil => simp [geFilter] at h
  | cons a rest ih =>
    rcases List.pairwise_cons.mp hs with ⟨ha, hrest⟩
    by_cases hsa : s ≤ a
    · have h2 : a :: geFilter s rest = p :: t := by
        simpa [geFilter, List.filter_cons, hsa] using h
      obtain ⟨rfl, rfl⟩ : a = p ∧ geFilter s rest = t := by
        exact ⟨(List.cons.injEq _ _ _ _ ▸ h2).1, (List.cons.injEq _ _ _ _ ▸ h2).2⟩
      have hself : a ≤ a := le_refl a
      have : geFilter a rest = geFilter s rest := by
        apply List.filter_congr
        intro q hq
        have := ha q hq
        simp only [decide_eq_decide]
        omega
      simpa [geFilter, List.filter_cons, hself] using this
    · have h2 : geFilter s rest = p :: t := by
        simpa [geFilter, List.filter_cons, hsa] using h
      have hp : p ∈ rest := by
        have : p ∈ geFilter s rest := by simp [h2]
        exact (mem_geFilter.mp this).1
      have hap : a < p := ha p hp
      have hnot : ¬(p ≤ a) := by omega
      have := ih hrest h2
      simpa [geFilter, List.filter_cons, hnot] using this

theorem geFilter_zero (ps : List Nat) : geFilter 0 ps = ps := by
  simp [geFilter]

-- Embedding of `_get_stack_start_pos` (`SlButton.cpp`, lines 169-184).

/-- Loop body of `_get_stack_start_pos`: the remaining iteration count of the
`for` loop together with the current `str_pos`.  Each iteration does
`str_pos = trace_str.find("=>", str_pos)`, returns `npos` (here `none`) when
the find fails, and otherwise does `++str_pos`. -/
def _get_stack_start_pos_loop (l : List Char) : Nat → Nat → Option Nat
  | 0, pos => some pos
  | n + 1, pos =>
      match strFind ARROW l pos with
      | none => none
      | some p => _get_stack_start_pos_loop l n (p + 1)

/-- Embedding of `_get_stack_start_pos(int16_t stack_offset, trace_str)`.
The `for` loop compares a signed `int64_t` counter against the signed
`int16_t` offset, so a negative offset yields zero iterations
(`Int.toNat`). -/
def _get_stack_start_pos (stack_offset : Int) (l : List Char) : Option Nat :=
  _get_stack_start_pos_loop l stack_offset.toNat 0

theorem gssp_loop_eq (l : List Char) (n : Nat) (s : Nat) :
    _get_stack_start_pos_loop l n s =
      if n = 0 then some s
      else ((geFilter s (occPositions ARROW l))[n - 1]?).map (· + 1) := by
  induction n generalizing s with
  | zero => simp [_get_stack_start_pos_loop]
  | succ m ih =>
    rw [_get_stack_start_pos_loop, strFind_eq_geFilter_head]
    rcases hq : geFilter s (occPositions ARROW l) with _ | ⟨p, t⟩
    · simp
    · have htail : geFilter (p + 1) (occPositions ARROW l) = t :=
        geFilter_tail (occPositions_pairwise ARROW l) hq
      rw [List.head?_cons]
      simp only []
      rw [ih (p + 1), htail]
      cases m with
      | zero => simp
      | succ k => simp

/-- C6 (amended): `_get_stack_start_pos` with a nonnegative skip `k` returns
position `0` for `k = 0`, and otherwise one plus the starting position of the
`k`-th occurrence of the `"=>"` marker (an index still inside the
two-character token), or `npos` (`none`) when fewer than `k` occurrences
exist. -/
theorem c6_get_stack_start_pos_amended (l : List Char) (k : Nat) :
    _get_stack_start_pos (k : Int) l =
      if k = 0 then some 0
      else ((occPositions ARROW l)[k - 1]?).map (· + 1) := by
  rw [_get_stack_start_pos, Int.toNat_natCast, gssp_loop_eq, geFilter_zero]

/-- C6 (counterexample): on the text `"=>a"`, whose only `"=>"` marker starts
at position `0` (so the position immediately after the two-character marker
token is `2`), `_get_stack_start_pos` with skip `1` returns `1`, not `2`. -/
theorem c6_get_stack_start_pos_counterexample :
    occPositions ARROW ('=' :: '>' :: 'a' :: []) = [0] ∧
    _get_stack_start_pos 1 ('=' :: '>' :: 'a' :: []) = some 1 ∧
    _get_stack_start_pos 1 ('=' :: '>' :: 'a' :: []) ≠ some (0 + ARROW.length) := by
  refine ⟨by decide, by decide, by decide⟩

-- Embedding of `_prettify_stack_item` (`SlButton.cpp`, lines 140-158).

/-- Value of `LABEL_LIMIT` in `_prettify_stack_item`. -/
def LABEL_LIMIT : Nat := 44

/-- Embedding of `_prettify_stack_item(to_prettify)`.

`name_start = to_prettify.find("=> ", 0) + 3` is `size_t` arithmetic: when
the marker is absent the result is `npos + 3 = 2 (mod 2^64)`.
`num_of_chars = name_end - name_start` likewise.  The source also contains
`prettified = prettified.replace('\n', "")`, which operates on the
still-empty `QString` and whose result is overwritten by the subsequent
assignments, so it has no effect on the returned value and has no
counterpart here.  `none` models the `std::out_of_range` exception of
`substr`. -/
def _prettify_stack_item (l : List Char) : Option (List Char) :=
  let name_start := (findD ARROW_SP l 0 + 3) % SIZE_MOD
  let name_end := findD PAREN_SP l name_start
  let num_of_chars := (name_end + SIZE_MOD - name_start) % SIZE_MOD
  if LABEL_LIMIT < num_of_chars then
    (substr l name_start LABEL_LIMIT).map (fun s => cstr (s ++ ELLIPSIS))
  else
    (substr l name_start num_of_chars).map cstr

/-- C7 (code evaluated at the failing input): on the frame line
`"=> a\nb (0x1)"` the returned text is `"a\nb"`, which still contains the
newline character — the newline strip in the source acts on an empty
temporary string and its result is discarded. -/
theorem c7_prettify_keeps_newline :
    _prettify_stack_item ('=' :: '>' :: ' ' :: 'a' :: '\n' :: 'b' :: ' ' ::
        '(' :: '0' :: 'x' :: '1' :: ')' :: []) =
      some ('a' :: '\n' :: 'b' :: []) ∧
    '\n' ∈ ('a' :: '\n' :: 'b' :: []) := by
  refine ⟨by decide, by decide⟩

/-- C9 (counterexample): `"hello"` is at most 44 characters long and contains
neither the `"=> "` marker nor the `" ("` suffix, yet `_prettify_stack_item`
returns `"llo..."` rather than the input unchanged: the failed marker search
makes `name_start = npos + 3 = 2`, dropping the first two characters, and the
huge wrapped `num_of_chars` forces the truncation branch that appends the
ellipsis. -/
theorem c9_prettify_not_identity_counterexample :
    _prettify_stack_item ('h' :: 'e' :: 'l' :: 'l' :: 'o' :: []) =
      some ('l' :: 'l' :: 'o' :: '.' :: '.' :: '.' :: []) ∧
    ('l' :: 'l' :: 'o' :: '.' :: '.' :: '.' :: []) ≠
      ('h' :: 'e' :: 'l' :: 'l' :: 'o' :: []) := by
  refine ⟨by decide, by decide⟩

theorem takeWhile_eq_self_of_forall {p : Char → Bool} {l : List Char}
    (h : ∀ c ∈ l, p c = true) : l.takeWhile p = l := by
  induction l with
  | nil => rfl
  | cons a as ih =>
    rw [List.takeWhile_cons, if_pos (h a (List.mem_cons_self a as))]
    exact congrArg (a :: ·) (ih fun c hc => h c (List.mem_cons_of_mem a hc))

theorem cstr_eq_self {l : List Char} (h : Char.ofNat 0 ∉ l) : cstr l = l := by
  apply takeWhile_eq_self_of_forall
  intro c hc
  simp only [bne_iff_ne, ne_eq, decide_eq_true_eq]
  intro hcc
  exact h (hcc ▸ hc)

/-- C9 (amended): on any NUL-free input of length at most 44 that contains
neither the `"=> "` marker nor the `" ("` suffix, `_prettify_stack_item` is
NOT the identity: it throws (`none`) when the input is shorter than two
characters, and otherwise returns the input without its first two characters
with `"..."` appended — in particular it never returns the input itself. -/
theorem c9_prettify_on_marker_free (l : List Char)
    (hm : occPositions ARROW_SP l = [])
    (hp : occPositions PAREN_SP l = [])
    (hnul : Char.ofNat 0 ∉ l)
    (hlen : l.length ≤ 44) :
    _prettify_stack_item l =
      (if l.length < 2 then none else some (l.drop 2 ++ ELLIPSIS)) ∧
    _prettify_stack_item l ≠ some l := by
  have hfind1 : findD ARROW_SP l 0 = NPOS := by
    rw [findD, strFind, hm]
    rfl
  have hfind2 : findD PAREN_SP l 2 = NPOS := by
    rw [findD, strFind, hp]
    rfl
  have hns : (NPOS + 3) % SIZE_MOD = 2 := by norm_num [NPOS, SIZE_MOD]
  have hnum : (NPOS + SIZE_MOD - 2) % SIZE_MOD = 2 ^ 64 - 3 := by
    norm_num [NPOS, SIZE_MOD]
  have hbig : LABEL_LIMIT < 2 ^ 64 - 3 := by norm_num [LABEL_LIMIT]
  have hmain : _prettify_stack_item l =
      (if l.length < 2 then none else some (l.drop 2 ++ ELLIPSIS)) := by
    rw [_prettify_stack_item]
    simp only [hfind1, hns, hfind2, hnum, if_pos hbig, substr]
    by_cases hsmall : l.length < 2
    · rw [if_neg (by omega), if_pos hsmall]
      rfl
    · rw [if_pos (by omega), if_neg hsmall]
      have htake : (l.drop 2).take LABEL_LIMIT = l.drop 2 := by
        apply List.take_of_length_le
        rw [List.length_drop, LABEL_LIMIT]
        omega
      rw [htake]
      have hcs : cstr (l.drop 2 ++ ELLIPSIS) = l.drop 2 ++ ELLIPSIS := by
        apply cstr_eq_self
        intro hmem
        rcases List.mem_append.mp hmem with h1 | h2
        · exact hnul (List.mem_of_mem_drop h1)
        · simp only [ELLIPSIS, List.mem_cons, List.not_mem_nil, or_false] at h2
          rcases h2 with h2 | h2 | h2 <;>
            exact absurd (congrArg Char.toNat h2) (by decide)
      simp [hcs]
  refine ⟨hmain, ?_⟩
  rw [hmain]
  by_cases hsmall : l.length < 2
  · simp [hsmall]
  · rw [if_neg hsmall]
    intro hcontra
    have heq := congrArg List.length (Option.some.inj hcontra)
    simp only [List.length_append, List.length_drop, ELLIPSIS, List.length_cons,
      List.length_nil] at heq
    omega

/-- C9 (witness for the amended theorem): the concrete marker-free input
`"hello"` satisfies the hypotheses and gets `"llo..."`. -/
theorem c9_prettify_on_marker_free_witness :
    occPositions ARROW_SP ('h' :: 'e' :: 'l' :: 'l' :: 'o' :: []) = [] ∧
    occPositions PAREN_SP ('h' :: 'e' :: 'l' :: 'l' :: 'o' :: []) = [] ∧
    Char.ofNat 0 ∉ ('h' :: 'e' :: 'l' :: 'l' :: 'o' :: []) ∧
    ('h' :: 'e' :: 'l' :: 'l' :: 'o' :: []).length ≤ 44 ∧
    (_prettify_stack_item ('h' :: 'e' :: 'l' :: 'l' :: 'o' :: []) =
      (if ('h' :: 'e' :: 'l' :: 'l' :: 'o' :: []).length < 2 then none
       else some (('h' :: 'e' :: 'l' :: 'l' :: 'o' :: []).drop 2 ++ ELLIPSIS)) ∧
     _prettify_stack_item ('h' :: 'e' :: 'l' :: 'l' :: 'o' :: []) ≠
      some ('h' :: 'e' :: 'l' :: 'l' :: 'o' :: [])) :=
  ⟨by decide, by decide, by decide, by decide,
    c9_prettify_on_marker_free _ (by decide) (by decide) (by decide) (by decide)⟩

-- Embedding of `_get_top_three_from_start` and `_get_top_three_stack_items`
-- (`SlButton.cpp`, lines 194-257) and of the configuration accessors they
-- use (`SlConfig.cpp`/`SlConfig.hpp`).

/-- The `std::array<QString, 3>` holding the three preview slots. -/
abbrev Top3 : Type := List Char × List Char × List Char

/-- Assignment `out_array[array_pos] = v`; `array_pos` is always `0`, `1` or
`2` in the source. -/
def top3_set (i : Nat) (v : List Char) (t : Top3) : Top3 :=
  match i with
  | 0 => (v, t.2.1, t.2.2)
  | 1 => (t.1, v, t.2.2)
  | _ => (t.1, t.2.1, v)

/-- Loop of `_get_top_three_from_start`.  Each iteration finds the next
`"=>"` at or after `str_pos` (`break` on `npos`), finds the following `"=>"`
from `content_start + 1`, on `npos` sets `content_end = length - 1` and
`counter = 3` (so `array_pos` becomes `2` and the loop exits after this
iteration), takes the `substr` between the two positions, prettifies it and
stores it at `array_pos`.  `none` models a propagated exception. -/
def _ttfs_loop (l : List Char) (counter pos : Nat) (arr : Top3) : Option Top3 :=
  if _h : counter < 3 then
    match strFind ARROW l pos with
    | none => some arr
    | some cs =>
      match strFind ARROW l (cs + 1) with
      | none =>
          (substr l cs (l.length - 1 - cs)).bind fun item =>
            (_prettify_stack_item item).map fun v => top3_set 2 v arr
      | some ce =>
          (substr l cs (ce - cs)).bind fun item =>
            (_prettify_stack_item item).bind fun v =>
              _ttfs_loop l (counter + 1) ce (top3_set counter v arr)
  else some arr
termination_by 3 - counter
decreasing_by omega

/-- Embedding of `_get_top_three_from_start(str_pos, trace_str)`. -/
def _get_top_three_from_start (str_pos : Nat) (l : List Char) : Option Top3 :=
  _ttfs_loop l 0 str_pos (DASH, DASH, DASH)

/-- Per-event configuration map `events_meta_t`: event name to
`(allowed, preview stack offset)` (`SlConfig.hpp`). -/
abbrev EventsMeta : Type := List (String × (Bool × Nat))

/-- Embedding of `SlConfig::get_stack_offset`: `0` when the event name is
absent from the map, otherwise the stored `depth_t` (a `uint32_t`). -/
def get_stack_offset (meta : EventsMeta) (evt_name : String) : Nat :=
  match meta.lookup evt_name with
  | none => 0
  | some m => m.2

/-- Embedding of `SlConfig::is_event_allowed`: `false` when the event name is
absent from the map, otherwise the stored flag. -/
def is_event_allowed (meta : EventsMeta) (evt_name : String) : Bool :=
  match meta.lookup evt_name with
  | none => false
  | some m => m.1

/-- Narrowing conversion of the `uint32_t` configuration depth to the
`int16_t` local `stack_offset` in `_get_top_three_stack_items`: the low 16
bits reinterpreted as a two's-complement value. -/
def toInt16ofUInt32 (d : Nat) : Int :=
  if d % 2 ^ 16 < 2 ^ 15 then ((d % 2 ^ 16 : Nat) : Int)
  else ((d % 2 ^ 16 : Nat) : Int) - 2 ^ 16

/-- Embedding of `_get_top_three_stack_items(stacktrace, evt_name)`: looks up
the configured depth, converts it to `int16_t`, computes the start position
and either returns three dashes (offset too high) or delegates to
`_get_top_three_from_start`. -/
def _get_top_three_stack_items (meta : EventsMeta) (l : List Char)
    (evt_name : String) : Option Top3 :=
  let stack_offset : Int := toInt16ofUInt32 (get_stack_offset meta evt_name)
  match _get_stack_start_pos stack_offset l with
  | none => some (DASH, DASH, DASH)
  | some pos => _get_top_three_from_start pos l

/-- Item between two consecutive marker positions: what iteration `i < last`
of the loop passes to `_prettify_stack_item`. -/
def midItem (l : List Char) (x y : Nat) : Option (List Char) :=
  (substr l x (y - x)).bind _prettify_stack_item

/-- Item from the last marker position: `content_end` is forced to
`length - 1`, so the trace's final character is dropped. -/
def lastItem (l : List Char) (x : Nat) : Option (List Char) :=
  (substr l x (l.length - 1 - x)).bind _prettify_stack_item

/-- Specification of the slot layout produced by the walk, as a function of
the list of marker positions at or after the start position: slots are
filled sequentially and default to `"-"`, but when the walk exhausts the
text mid-iteration the last available frame goes to slot 2. -/
def ttfsSpec (l : List Char) (qs : List Nat) : Option Top3 :=
  match qs with
  | [] => some (DASH, DASH, DASH)
  | [p0] => (lastItem l p0).map fun g => (DASH, DASH, g)
  | [p0, p1] =>
      (midItem l p0 p1).bind fun f0 =>
        (lastItem l p1).map fun g => (f0, DASH, g)
  | [p0, p1, p2] =>
      (midItem l p0 p1).bind fun f0 =>
        (midItem l p1 p2).bind fun f1 =>
          (lastItem l p2).map fun g => (f0, f1, g)
  | p0 :: p1 :: p2 :: p3 :: _ =>
      (midItem l p0 p1).bind fun f0 =>
        (midItem l p1 p2).bind fun f1 =>
          (midItem l p2 p3).map fun f2 => (f0, f1, f2)

theorem ttfs_loop_stop (l : List Char) (counter pos : Nat) (arr : Top3)
    (h : 3 ≤ counter) : _ttfs_loop l counter pos arr = some arr := by
  rw [_ttfs_loop, dif_neg (by omega)]

theorem ttfs_loop_nofind (l : List Char) (counter pos : Nat) (arr : Top3)
    (h : counter < 3) (hf : strFind ARROW l pos = none) :
    _ttfs_loop l counter pos arr = some arr := by
  rw [_ttfs_loop, dif_pos h, hf]

theorem ttfs_loop_last (l : List Char) (counter pos cs : Nat) (arr : Top3)
    (h : counter < 3) (hf : strFind ARROW l pos = some cs)
    (hf2 : strFind ARROW l (cs + 1) = none) :
    _ttfs_loop l counter pos arr =
      (substr l cs (l.length - 1 - cs)).bind fun item =>
        (_prettify_stack_item item).map fun v => top3_set 2 v arr := by
  rw [_ttfs_loop, dif_pos h, hf]
  simp only [hf2]

theorem ttfs_loop_mid (l : List Char) (counter pos cs ce : Nat) (arr : Top3)
    (h : counter < 3) (hf : strFind ARROW l pos = some cs)
    (hf2 : strFind ARROW l (cs + 1) = some ce) :
    _ttfs_loop l counter pos arr =
      (substr l cs (ce - cs)).bind fun item =>
        (_prettify_stack_item item).bind fun v =>
          _ttfs_loop l (counter + 1) ce (top3_set counter v arr) := by
  rw [_ttfs_loop, dif_pos h, hf]
  simp only [hf2]

theorem ttfs_characterization (l : List Char) (s : Nat) :
    _get_top_three_from_start s l =
      ttfsSpec l (geFilter s (occPositions ARROW l)) := by
  have hpw := occPositions_pairwise ARROW l
  rw [_get_top_three_from_start]
  rcases h0 : geFilter s (occPositions ARROW l) with _ | ⟨p0, t0⟩
  · rw [ttfs_loop_nofind l 0 s _ (by omega)
      (by rw [strFind_eq_geFilter_head, h0]; rfl)]
    rfl
  · have hf0 : strFind ARROW l s = some p0 := by
      rw [strFind_eq_geFilter_head, h0]; rfl
    have h1 : geFilter (p0 + 1) (occPositions ARROW l) = t0 :=
      geFilter_tail hpw h0
    rcases t0 with _ | ⟨p1, t1⟩
    · -- one marker available: slot 2 gets the tail item
      rw [ttfs_loop_last l 0 s p0 _ (by omega) hf0
        (by rw [strFind_eq_geFilter_head, h1]; rfl)]
      cases hsub : substr l p0 (l.length - 1 - p0) with
      | none => simp [ttfsSpec, lastItem, hsub]
      | some item =>
        cases hpret : _prettify_stack_item item with
        | none => simp [ttfsSpec, lastItem, hsub, hpret]
        | some g => simp [ttfsSpec, lastItem, hsub, hpret, top3_set]
    · -- at least two markers: slot 0 is filled, loop continues at p1
      have h1self : geFilter p1 (occPositions ARROW l) = p1 :: t1 :=
        geFilter_head_self hpw h1
      have h2 : geFilter (p1 + 1) (occPositions ARROW l) = t1 :=
        geFilter_tail hpw h1self
      have hf1 : strFind ARROW l p1 = some p1 := by
        rw [strFind_eq_geFilter_head, h1self]; rfl
      rw [ttfs_loop_mid l 0 s p0 p1 _ (by omega) hf0
        (by rw [strFind_eq_geFilter_head, h1]; rfl)]
      cases hsub0 : substr l p0 (p1 - p0) with
      | none =>
        rcases t1 with _ | ⟨p2, t2⟩
        · simp [ttfsSpec, midItem, hsub0]
        · rcases t2 with _ | ⟨p3, t3⟩ <;> simp [ttfsSpec, midItem, hsub0]
      | some item0 =>
        cases hpret0 : _prettify_stack_item item0 with
        | none =>
          rcases t1 with _ | ⟨p2, t2⟩
          · simp [ttfsSpec, midItem, hsub0, hpret0]
          · rcases t2 with _ | ⟨p3, t3⟩ <;>
              simp [ttfsSpec, midItem, hsub0, hpret0]
        | some f0 =>
          simp only [hsub0, hpret0, Option.some_bind]
          show _ttfs_loop l 1 p1 (f0, DASH, DASH) = _
          rcases t1 with _ | ⟨p2, t2⟩
          · rw [ttfs_loop_last l 1 p1 p1 _ (by omega) hf1
              (by rw [strFind_eq_geFilter_head, h2]; rfl)]
            cases hsub1 : substr l p1 (l.length - 1 - p1) with
            | none => simp [ttfsSpec, midItem, lastItem, hsub0, hpret0, hsub1]
            | some item1 =>
              cases hpret1 : _prettify_stack_item item1 with
              | none =>
                simp [ttfsSpec, midItem, lastItem, hsub0, hpret0, hsub1, hpret1]
              | some g =>
                simp [ttfsSpec, midItem, lastItem, hsub0, hpret0, hsub1,
                  hpret1, top3_set]
          · have h2self : geFilter p2 (occPositions ARROW l) = p2 :: t2 :=
              geFilter_head_self hpw h2
            have h3 : geFilter (p2 + 1) (occPositions ARROW l) = t2 :=
              geFilter_tail hpw h2self
            have hf2 : strFind ARROW l p2 = some p2 := by
              rw [strFind_eq_geFilter_head, h2self]; rfl
            rw [ttfs_loop_mid l 1 p1 p1 p2 _ (by omega) hf1
              (by rw [strFind_eq_geFilter_head, h2]; rfl)]
            cases hsub1 : substr l p1 (p2 - p1) with
            | none =>
              rcases t2 with _ | ⟨p3, t3⟩ <;>
                simp [ttfsSpec, midItem, hsub0, hpret0, hsub1]
            | some item1 =>
              cases hpret1 : _prettify_stack_item item1 with
              | none =>
                rcases t2 with _ | ⟨p3, t3⟩ <;>
                  simp [ttfsSpec, midItem, hsub0, hpret0, hsub1, hpret1]
              | some f1 =>
                simp only [hsub1, hpret1, Option.some_bind]
                show _ttfs_loop l 2 p2 (f0, f1, DASH) = _
                rcases t2 with _ | ⟨p3, t3⟩
                · rw [ttfs_loop_last l 2 p2 p2 _ (by omega) hf2
                    (by rw [strFind_eq_geFilter_head, h3]; rfl)]
                  cases hsub2 : substr l p2 (l.length - 1 - p2) with
                  | none =>
                    simp [ttfsSpec, midItem, lastItem, hsub0, hpret0, hsub1,
                      hpret1, hsub2]
                  | some item2 =>
                    cases hpret2 : _prettify_stack_item item2 with
                    | none =>
                      simp [ttfsSpec, midItem, lastItem, hsub0, hpret0,
                        hsub1, hpret1, hsub2, hpret2]
                    | some g =>
                      simp [ttfsSpec, midItem, lastItem, hsub0, hpret0,
                        hsub1, hpret1, hsub2, hpret2, top3_set]
                · rw [ttfs_loop_mid l 2 p2 p2 p3 _ (by omega) hf2
                    (by rw [strFind_eq_geFilter_head, h3]; rfl)]
                  cases hsub2 : substr l p2 (p3 - p2) with
                  | none =>
                    simp [ttfsSpec, midItem, hsub0, hpret0, hsub1, hpret1,
                      hsub2]
                  | some item2 =>
                    cases hpret2 : _prettify_stack_item item2 with
                    | none =>
                      simp [ttfsSpec, midItem, hsub0, hpret0, hsub1, hpret1,
                        hsub2, hpret2]
                    | some f2 =>
                      simp only [hsub2, hpret2, Option.some_bind]
                      show _ttfs_loop l 3 p3 (f0, f1, f2) = _
                      rw [ttfs_loop_stop l 3 p3 _ (by omega)]
                      simp [ttfsSpec, midItem, hsub0, hpret0, hsub1, hpret1,
                        hsub2, hpret2, top3_set]

/-- C2: with an effective skip depth exceeding the number of `"=>"` markers,
`_get_top_three_stack_items` returns three `"-"` placeholders; and
`_get_top_three_from_start` fills the three slots (each defaulting to `"-"`)
sequentially from the marker positions at or after the start position,
except that when the walk runs out of text mid-iteration the last available
frame is written into slot 2 — `ttfsSpec` exhibits the layout per number of
available markers; in particular with exactly two frames remaining the
result is `(frame0, "-", frame1)`. -/
theorem c2_top_three_slots (l : List Char) (s : Nat) (meta : EventsMeta)
    (evt_name : String) :
    _get_top_three_from_start s l =
      ttfsSpec l (geFilter s (occPositions ARROW l)) ∧
    (get_stack_offset meta evt_name < 2 ^ 15 →
      (occPositions ARROW l).length < get_stack_offset meta evt_name →
      _get_top_three_stack_items meta l evt_name = some (DASH, DASH, DASH)) := by
  refine ⟨ttfs_characterization l s, fun hlt hN => ?_⟩
  set d := get_stack_offset meta evt_name with hd
  have hmod : d % 2 ^ 16 = d := Nat.mod_eq_of_lt (lt_trans hlt (by norm_num))
  have hconv : toInt16ofUInt32 d = (d : Int) := by
    rw [toInt16ofUInt32, if_pos (by rw [hmod]; exact hlt), hmod]
  have hnone : _get_stack_start_pos ((d : Nat) : Int) l = none := by
    rw [_get_stack_start_pos, Int.toNat_natCast, gssp_loop_eq, geFilter_zero,
      if_neg (by omega)]
    have hge : (occPositions ARROW l)[d - 1]? = none := by
      rw [List.getElem?_eq_none]
      omega
    rw [hge]
    rfl
  rw [_get_top_three_stack_items]
  simp only [← hd, hconv, hnone]

/-- C2 (witness): a two-character trace with no markers and a configured
depth of 5 yields the three placeholders. -/
theorem c2_top_three_slots_witness :
    get_stack_offset [("e", (true, 5))] "e" < 2 ^ 15 ∧
    (occPositions ARROW ('a' :: 'b' :: [])).length <
      get_stack_offset [("e", (true, 5))] "e" ∧
    _get_top_three_stack_items [("e", (true, 5))] ('a' :: 'b' :: []) "e" =
      some (DASH, DASH, DASH) :=
  ⟨by decide, by decide,
    (c2_top_three_slots ('a' :: 'b' :: []) 0 [("e", (true, 5))] "e").2
      (by decide) (by decide)⟩

/-- C10: the preview skip actually used is the configured `uint32_t` depth
narrowed to `int16_t`: when the low 16 bits are below `2 ^ 15` the skip is
exactly `d % 2 ^ 16`; otherwise the converted value is negative, the skip
loop runs zero times and the preview starts at position 0; consequently a
configured depth of `2 ^ 16 + k` behaves exactly like depth `k`. -/
theorem c10_depth_conversion (d k : Nat) (l : List Char) (evt_name : String) :
    (d % 2 ^ 16 < 2 ^ 15 → toInt16ofUInt32 d = ((d % 2 ^ 16 : Nat) : Int)) ∧
    (2 ^ 15 ≤ d % 2 ^ 16 →
      toInt16ofUInt32 d < 0 ∧
      _get_stack_start_pos (toInt16ofUInt32 d) l = some 0) ∧
    _get_top_three_stack_items [(evt_name, (true, 2 ^ 16 + k))] l evt_name =
      _get_top_three_stack_items [(evt_name, (true, k))] l evt_name := by
  refine ⟨fun hlt => by rw [toInt16ofUInt32, if_pos hlt], fun hge => ?_, ?_⟩
  · have hub : d % 2 ^ 16 < 2 ^ 16 := Nat.mod_lt _ (by norm_num)
    have hneg : toInt16ofUInt32 d < 0 := by
      rw [toInt16ofUInt32, if_neg (by omega)]
      have : ((d % 2 ^ 16 : Nat) : Int) < 2 ^ 16 := by exact_mod_cast hub
      omega
    refine ⟨hneg, ?_⟩
    rw [_get_stack_start_pos, Int.toNat_of_nonpos (le_of_lt hneg)]
    rfl
  · have hoff : get_stack_offset [(evt_name, (true, 2 ^ 16 + k))] evt_name =
        2 ^ 16 + k := by
      simp [get_stack_offset, List.lookup]
    have hoffk : get_stack_offset [(evt_name, (true, k))] evt_name = k := by
      simp [get_stack_offset, List.lookup]
    have hsame : toInt16ofUInt32 (2 ^ 16 + k) = toInt16ofUInt32 k := by
      rw [toInt16ofUInt32, toInt16ofUInt32, Nat.add_mod_left]
    rw [_get_top_three_stack_items, _get_top_three_stack_items, hoff, hoffk,
      hsame]

/-- C10 (witness): depth `3` converts to skip `3`; depth `40000` (low 16 bits
at least `2 ^ 15`) converts to a negative skip and yields start position 0;
depth `2 ^ 16 + 2` behaves like depth `2`. -/
theorem c10_depth_conversion_witness :
    (3 % 2 ^ 16 < 2 ^ 15 ∧ toInt16ofUInt32 3 = ((3 % 2 ^ 16 : Nat) : Int)) ∧
    (2 ^ 15 ≤ 40000 % 2 ^ 16 ∧ toInt16ofUInt32 40000 < 0 ∧
      _get_stack_start_pos (toInt16ofUInt32 40000) ('a' :: []) = some 0) ∧
    _get_top_three_stack_items [("e", (true, 2 ^ 16 + 2))] ('a' :: []) "e" =
      _get_top_three_stack_items [("e", (true, 2))] ('a' :: []) "e" :=
  ⟨⟨by decide, (c10_depth_conversion 3 0 ('a' :: []) "e").1 (by decide)⟩,
   ⟨by decide, (c10_depth_conversion 40000 0 ('a' :: []) "e").2.1 (by decide)⟩,
   (c10_depth_conversion 0 2 ('a' :: []) "e").2.2⟩

-- Embedding of the host entry model (`libkshark.h`, out of scope, interfaces
-- only) and of `get_kstack_entry`, `_check_function_general`,
-- `search_for_kstacks` and `draw_stacklook_objects` (`src/Stacklook.cpp`).

/-- Visibility mask bits of `enum kshark_filter_masks` in the host's
`libkshark.h`. -/
def KS_TEXT_VIEW_FILTER_MASK : Nat := 1

/-- Graph-view visibility bit. -/
def KS_GRAPH_VIEW_FILTER_MASK : Nat := 2

/-- Event-view visibility bit. -/
def KS_EVENT_VIEW_FILTER_MASK : Nat := 4

/-- Plugin-untouched bit. -/
def KS_PLUGIN_UNTOUCHED_MASK : Nat := 128

/-- Host-owned `kshark_entry` record: the fields the plugin reads.  The
`next` pointer is not a field here: an entry's finite same-CPU successor
chain is passed alongside it as a `List KsEntry` (the entry itself first). -/
structure KsEntry where
  stream_id : Int
  event_id : Int
  pid : Int
  cpu : Int
  visible : Nat
  info : List Char
deriving DecidableEq

/-- Record of the `kshark_data_container` used by the plugin: an entry (with
its chain) plus the `int64` field holding `-1` (`none`) or the resolved
kernel-stack entry pointer. -/
structure SlDataField where
  chain : List KsEntry
  field : Option KsEntry

/-- Embedding of `struct plugin_stacklook_ctx` (`stacklook.h`):
the three event-type ids resolved at stream attach, the two scan flags and
the collected-events container (`none` models a null container pointer). -/
structure plugin_stacklook_ctx where
  sswitch_event_id : Int
  kstack_event_id : Int
  swaking_event_id : Int
  kstacks_exist : Bool
  searched_for_kstacks : Bool
  collected_events : Option (List SlDataField)

/-- Effective process id of an entry: its own `pid` field when the
`KS_PLUGIN_UNTOUCHED_MASK` bit of `visible` is set, otherwise the host's
canonical `kshark_get_pid` lookup (a parameter of the embedding). -/
def effectivePid (hostPid : KsEntry → Int) (e : KsEntry) : Int :=
  if e.visible &&& KS_PLUGIN_UNTOUCHED_MASK ≠ 0 then e.pid else hostPid e

/-- The `while (!(is_kstack && is_correct_task))` walk of `get_kstack_entry`:
checks the current entry, then repeatedly follows `next` (the list tail),
returning `none` when the chain ends. -/
def kstack_walk (kid rpid : Int) : List KsEntry → Option KsEntry
  | [] => none
  | e :: rest =>
      if e.event_id = kid ∧ rpid = e.pid then some e else kstack_walk kid rpid rest

/-- Embedding of `get_kstack_entry(kstack_owner)` (`Stacklook.cpp`, lines
298-332).  `chain` is the owner followed by its finite same-CPU `next`
chain; `[]` models a null owner.  `ctxOf` is the host's `__get_context`
table. -/
def get_kstack_entry (hostPid : KsEntry → Int)
    (ctxOf : Int → Option plugin_stacklook_ctx)
    (chain : List KsEntry) : Option KsEntry :=
  match chain with
  | [] => none
  | owner :: _ =>
    match ctxOf owner.stream_id with
    | none => none
    | some ctx =>
        kstack_walk ctx.kstack_event_id (effectivePid hostPid owner) chain

theorem kstack_walk_eq_find (kid rpid : Int) (chain : List KsEntry) :
    kstack_walk kid rpid chain =
      chain.find? (fun e => e.event_id == kid && rpid == e.pid) := by
  induction chain with
  | nil => rfl
  | cons e rest ih =>
    rw [kstack_walk]
    by_cases h : e.event_id = kid ∧ rpid = e.pid
    · rw [if_pos h, List.find?_cons_of_pos]
      simp [h.1, h.2]
    · rw [if_neg h, List.find?_cons_of_neg, ih]
      simp only [Bool.and_eq_true, beq_iff_eq]
      exact fun hc => h hc

/-- C1: for every owner with a finite same-CPU `next` chain,
`get_kstack_entry` returns the first entry in chain order, starting at the
owner itself, whose event-type id is the stream's kernel-stack id and whose
pid equals the owner's effective pid; it returns `none` when the chain ends
without a match, when the owner is null (`[]`) or when the stream-context
lookup fails. -/
theorem c1_get_kstack_entry_first_match (hostPid : KsEntry → Int)
    (ctxOf : Int → Option plugin_stacklook_ctx) (chain : List KsEntry) :
    get_kstack_entry hostPid ctxOf chain =
      match chain with
      | [] => none
      | owner :: _ =>
        match ctxOf owner.stream_id with
        | none => none
        | some ctx =>
            chain.find? (fun e =>
              e.event_id == ctx.kstack_event_id &&
              effectivePid hostPid owner == e.pid) := by
  cases chain with
  | nil => rfl
  | cons owner rest =>
    show get_kstack_entry hostPid ctxOf (owner :: rest) =
      match ctxOf owner.stream_id with
      | none => none
      | some ctx =>
          (owner :: rest).find? (fun e =>
            e.event_id == ctx.kstack_event_id &&
            effectivePid hostPid owner == e.pid)
    rw [get_kstack_entry]
    cases ctxOf owner.stream_id with
    | none => rfl
    | some ctx => exact kstack_walk_eq_find _ _ _

-- Embedding of `_check_function_general` (`Stacklook.cpp`, lines 56-75) and
-- of the per-draw-mode check lambdas of `draw_stacklook_objects` (lines
-- 385-406): a pure predicate on the entry, its evidence entry, the stream
-- context, the configuration and the host's event-name lookup.

/-- Embedding of `_check_function_general(entry, kstack_entry, ctx)`:
`false` when either pointer is null, otherwise the conjunction of the
event-id test, the configuration-allowed test and the two visibility-mask
tests. -/
def _check_function_general (meta : EventsMeta) (evtNameOf : KsEntry → String)
    (entry kstack_entry : Option KsEntry) (ctx : plugin_stacklook_ctx) : Bool :=
  match entry, kstack_entry with
  | some e, some _ =>
      (ctx.sswitch_event_id == e.event_id || ctx.swaking_event_id == e.event_id)
      && is_event_allowed meta (evtNameOf e)
      && ((e.visible &&& KS_EVENT_VIEW_FILTER_MASK) != 0)
      && ((e.visible &&& KS_GRAPH_VIEW_FILTER_MASK) != 0)
  | _, _ => false

/-- Draw mode of the draw request: `KSHARK_TASK_DRAW` or `KSHARK_CPU_DRAW`
(the check lambdas only exist for these two actions). -/
inductive DrawMode where
  | task : DrawMode
  | cpu : DrawMode
deriving DecidableEq

/-- Embedding of the `check_func` lambdas built in `draw_stacklook_objects`:
`false` for a null entry, otherwise `_check_function_general` conjoined with
the focus test (`entry->pid == val` in task mode, `entry->cpu == val` in CPU
mode). -/
def draw_check_func (mode : DrawMode) (val : Int) (meta : EventsMeta)
    (evtNameOf : KsEntry → String) (ctx : plugin_stacklook_ctx)
    (entry kstack_entry : Option KsEntry) : Bool :=
  match entry with
  | none => false
  | some e =>
      _check_function_general meta evtNameOf entry kstack_entry ctx
      && (match mode with
          | DrawMode.task => e.pid == val
          | DrawMode.cpu => e.cpu == val)

/-- Condition 1 of C3: both the entry and its kernel-stack evidence entry
are present. -/
def cond_present (entry kstack_entry : Option KsEntry) : Bool :=
  entry.isSome && kstack_entry.isSome

/-- Condition 2 of C3: the entry's event-type id is one of the two
configured event types of interest. -/
def cond_event_of_interest (ctx : plugin_stacklook_ctx)
    (entry : Option KsEntry) : Bool :=
  match entry with
  | some e =>
      ctx.sswitch_event_id == e.event_id || ctx.swaking_event_id == e.event_id
  | none => false

/-- Condition 3 of C3: the per-event-type policy allows the event type. -/
def cond_allowed (meta : EventsMeta) (evtNameOf : KsEntry → String)
    (entry : Option KsEntry) : Bool :=
  match entry with
  | some e => is_event_allowed meta (evtNameOf e)
  | none => false

/-- Condition 4 of C3: both the event-view and the graph-view visibility
mask bits of the entry are set. -/
def cond_visible (entry : Option KsEntry) : Bool :=
  match entry with
  | some e =>
      ((e.visible &&& KS_EVENT_VIEW_FILTER_MASK) != 0)
      && ((e.visible &&& KS_GRAPH_VIEW_FILTER_MASK) != 0)
  | none => false

/-- Condition 5 of C3: the focus predicate of the active draw mode. -/
def cond_focus (mode : DrawMode) (val : Int) (entry : Option KsEntry) : Bool :=
  match entry with
  | some e =>
      (match mode with
       | DrawMode.task => e.pid == val
       | DrawMode.cpu => e.cpu == val)
  | none => false

/-- C3: marker eligibility is the pure conjunction of exactly the five
conditions (presence of both entries, event type of interest, policy
allowed, both visibility bits, focus match) — a Boolean identity, so for any
assignment in which four conditions hold the result equals the remaining
condition, and flipping it flips the result; the check is a pure function
with no side effects. -/
theorem c3_eligibility_is_conjunction (mode : DrawMode) (val : Int)
    (meta : EventsMeta) (evtNameOf : KsEntry → String)
    (ctx : plugin_stacklook_ctx) (entry kstack_entry : Option KsEntry) :
    draw_check_func mode val meta evtNameOf ctx entry kstack_entry =
      (cond_present entry kstack_entry
       && cond_event_of_interest ctx entry
       && cond_allowed meta evtNameOf entry
       && cond_visible entry
       && cond_focus mode val entry) := by
  cases entry with
  | none => rfl
  | some e =>
    cases kstack_entry with
    | none =>
      simp [draw_check_func, _check_function_general, cond_present]
    | some k =>
      simp only [draw_check_func, _check_function_general, cond_present,
        cond_event_of_interest, cond_allowed, cond_visible, cond_focus,
        Option.isSome_some, Bool.true_and, Bool.and_assoc]

-- Embedding of `search_for_kstacks` (`Stacklook.cpp`, lines 267-283) and of
-- the state-affecting prefix of `draw_stacklook_objects` (lines 344-409).

/-- Host draw-action identifiers (`libkshark-plugin.h`); only the two
constants compared against matter, any other `Int` models the remaining
actions. -/
def KSHARK_TASK_DRAW : Int := 0

/-- CPU-draw action identifier. -/
def KSHARK_CPU_DRAW : Int := 1

/-- Embedding of `search_for_kstacks(dct)`: for every record of the
container, resolves the kernel-stack entry of the record's entry and stores
it in the record's `field`; returns the updated container and whether at
least one kernel-stack entry was found.  An empty container yields `false`
(the `dct->size == 0` guard). -/
def search_for_kstacks (hostPid : KsEntry → Int)
    (ctxOf : Int → Option plugin_stacklook_ctx) :
    List SlDataField → List SlDataField × Bool
  | [] => ([], false)
  | r :: rest =>
      let tail := search_for_kstacks hostPid ctxOf rest
      match get_kstack_entry hostPid ctxOf r.chain with
      | some k => ({ r with field := some k } :: tail.1, true)
      | none => (r :: tail.1, tail.2)

/-- Host-side inputs of one draw request: the draw action, the histogram's
total bin count and the task/CPU focus value. -/
structure DrawReq where
  draw_action : Int
  tot_count : Int
  val : Int

/-- Host environment of the draw handler: the canonical-pid lookup, the
context table and the configured histogram entry limit. -/
structure DrawEnv where
  hostPid : KsEntry → Int
  ctxOf : Int → Option plugin_stacklook_ctx
  histo_limit : Int

/-- State-affecting embedding of `draw_stacklook_objects`: returns the
updated context together with a flag telling whether the one-time evidence
scan ran during this request.  The function returns unchanged state when the
draw action is neither CPU nor task draw, when the bin count exceeds the
configured limit, or when the container is null; it runs the scan exactly
when `searched_for_kstacks` is still false, storing the scan result in
`kstacks_exist` and setting `searched_for_kstacks` to true regardless of
that result.  The subsequent drawing of buttons only reads state. -/
def draw_stacklook_objects (env : DrawEnv) (ctx : plugin_stacklook_ctx)
    (req : DrawReq) : plugin_stacklook_ctx × Bool :=
  if ¬(req.draw_action = KSHARK_CPU_DRAW ∨ req.draw_action = KSHARK_TASK_DRAW)
  then (ctx, false)
  else if env.histo_limit < req.tot_count then (ctx, false)
  else
    match ctx.collected_events with
    | none => (ctx, false)
    | some data =>
      if ctx.searched_for_kstacks = false then
        let res := search_for_kstacks env.hostPid env.ctxOf data
        ({ ctx with collected_events := some res.1,
                    kstacks_exist := res.2,
                    searched_for_kstacks := true }, true)
      else (ctx, false)

/-- Sequence of draw requests applied to a stream context, counting the
requests on which the one-time scan ran. -/
def run_draws (env : DrawEnv) (ctx : plugin_stacklook_ctx) :
    List DrawReq → plugin_stacklook_ctx × Nat
  | [] => (ctx, 0)
  | r :: rs =>
      let step := draw_stacklook_objects env ctx r
      let rest := run_draws env step.1 rs
      (rest.1, (if step.2 then 1 else 0) + rest.2)

theorem draw_step_cases (env : DrawEnv) (ctx : plugin_stacklook_ctx)
    (req : DrawReq) :
    draw_stacklook_objects env ctx req = (ctx, false) ∨
      (ctx.searched_for_kstacks = false ∧
       (draw_stacklook_objects env ctx req).2 = true ∧
       (draw_stacklook_objects env ctx req).1.searched_for_kstacks = true) := by
  rw [draw_stacklook_objects]
  split
  · left; rfl
  · split
    · left; rfl
    · split
      · left; rfl
      · split
        · next hflag => right; exact ⟨hflag, rfl, rfl⟩
        · left; rfl

theorem draw_step_no_scan_same (env : DrawEnv) (ctx : plugin_stacklook_ctx)
    (req : DrawReq) (h : (draw_stacklook_objects env ctx req).2 = false) :
    (draw_stacklook_objects env ctx req).1 = ctx := by
  rcases draw_step_cases env ctx req with hc | ⟨_, h2, _⟩
  · rw [hc]
  · rw [h2] at h
    exact absurd h (by simp)

theorem draw_step_scan_sets_flag (env : DrawEnv) (ctx : plugin_stacklook_ctx)
    (req : DrawReq) (h : (draw_stacklook_objects env ctx req).2 = true) :
    (draw_stacklook_objects env ctx req).1.searched_for_kstacks = true := by
  rcases draw_step_cases env ctx req with hc | ⟨_, _, h3⟩
  · rw [hc] at h
    exact absurd h (by simp)
  · exact h3

theorem draw_step_searched_no_scan (env : DrawEnv)
    (ctx : plugin_stacklook_ctx) (req : DrawReq)
    (h : ctx.searched_for_kstacks = true) :
    (draw_stacklook_objects env ctx req).2 = false := by
  rcases draw_step_cases env ctx req with hc | ⟨h1, _, _⟩
  · rw [hc]
  · rw [h1] at h
    exact absurd h (by simp)

/-- C5: over every sequence of draw requests on one stream context, the
one-time evidence scan runs at most once — never when the
`searched_for_kstacks` flag is already true — and whenever a request does
run the scan, the flag is true immediately afterwards (whatever the scan
found), so no later request runs it again. -/
theorem c5_scan_at_most_once (env : DrawEnv) (ctx : plugin_stacklook_ctx)
    (reqs : List DrawReq) (req : DrawReq) :
    (run_draws env ctx reqs).2 ≤
      (if ctx.searched_for_kstacks then 0 else 1) ∧
    (draw_stacklook_objects env ctx req).2 ≤
      (draw_stacklook_objects env ctx req).1.searched_for_kstacks ∧
    (ctx.searched_for_kstacks && (draw_stacklook_objects env ctx req).2)
      = false := by
  refine ⟨?_, ?_, ?_⟩
  · induction reqs generalizing ctx with
    | nil => simp [run_draws]
    | cons r rs ih =>
      rw [run_draws]
      cases hstep : (draw_stacklook_objects env ctx r).2 with
      | false =>
        have hsame := draw_step_no_scan_same env ctx r hstep
        simpa [hstep, hsame] using ih ctx
      | true =>
        have hflag := draw_step_scan_sets_flag env ctx r hstep
        have hrest := ih (draw_stacklook_objects env ctx r).1
        rw [hflag] at hrest
        have hpre : ctx.searched_for_kstacks = false := by
          by_contra hc
          have := draw_step_searched_no_scan env ctx r
            (Bool.not_eq_false _ ▸ hc)
          rw [this] at hstep
          exact Bool.false_ne_true hstep
        have h0 : (run_draws env (draw_stacklook_objects env ctx r).1 rs).2
            = 0 := by
          simpa using hrest
        simp [hstep, hpre, h0]
  · cases hstep : (draw_stacklook_objects env ctx req).2 with
    | false => exact Bool.false_le _
    | true => rw [draw_step_scan_sets_flag env ctx req hstep]
  · cases hpre : ctx.searched_for_kstacks with
    | false => rfl
    | true =>
      rw [draw_step_searched_no_scan env ctx req hpre]
      simp

-- Embedding of `get_switch_prev_state` and `get_longer_prev_state`
-- (`SlPrevState.cpp`) and of the `LETTER_TO_NAME` table (`SlPrevState.hpp`).

/-- Fixed map from one-character task-state codes to full names
(`SlPrevState.hpp`). -/
def LETTER_TO_NAME : List (Char × List Char) :=
  [('S', "sleeping".toList),
   ('D', "uninterruptible (disk) sleep".toList),
   ('R', "running".toList),
   ('I', "idle".toList),
   ('T', "stopped".toList),
   ('t', "tracing stop".toList),
   ('X', "dead".toList),
   ('Z', "zombie".toList),
   ('P', "parked".toList)]

/-- Embedding of `get_switch_prev_state(entry)`: finds `" ==>"` in the
entry's info string and takes the one-character substring at the preceding
position.  `start - 1` is `size_t` arithmetic (so a failed find would make
it wrap), and `none` models the `std::out_of_range` exception of
`substr`. -/
def get_switch_prev_state (e : KsEntry) : Option (List Char) :=
  let start := (strFind SWMARK e.info 0).getD NPOS
  substr e.info ((start + SIZE_MOD - 1) % SIZE_MOD) 1

/-- Embedding of `get_longer_prev_state(entry)`: the raw code string, then
`" - "`, then the table's full name for the code's first character, with
`"unknown"` for codes absent from the table.  `ps_base[0]` on the
(guaranteed length-1) code string is modelled by `headD '\x00'`, matching
`operator[]`'s null character for an empty C++ string. -/
def get_longer_prev_state (e : KsEntry) : Option (List Char) :=
  (get_switch_prev_state e).map fun ps_base =>
    let final_string :=
      match LETTER_TO_NAME.lookup (ps_base.headD (Char.ofNat 0)) with
      | none => "unknown".toList
      | some n => n
    ps_base ++ " - ".toList ++ final_string

/-- C8: whenever the info string's first `" ==>"` marker sits at a position
`p ≥ 1` (and `p` fits the host's `size_t`), the read at offset `-1` from the
marker is in range — the out-of-range failure is unreachable — and
`get_switch_prev_state` returns exactly the one-character string preceding
the marker, while `get_longer_prev_state` returns that code, `" - "`, and
the fixed table's full name (codes absent from the table yielding
`"unknown"`). -/
theorem c8_prev_state_safe (e : KsEntry) (p : Nat)
    (hfind : strFind SWMARK e.info 0 = some p)
    (hpos : 1 ≤ p) (hsz : p < 2 ^ 64) :
    ∃ c, e.info[p - 1]? = some c ∧
      get_switch_prev_state e = some [c] ∧
      get_longer_prev_state e =
        some ([c] ++ " - ".toList ++
          (match LETTER_TO_NAME.lookup c with
           | none => "unknown".toList
           | some n => n)) := by
  have hmem : p ∈ occPositions SWMARK e.info := by
    have := List.mem_of_find?_eq_some hfind
    exact this
  have hlen : p + SWMARK.length ≤ e.info.length :=
    occPositions_le_length (by simp [SWMARK]) hmem
  have hplen : p - 1 < e.info.length := by
    simp only [SWMARK, List.length_cons, List.length_nil] at hlen
    omega
  have hmod : (p + SIZE_MOD - 1) % SIZE_MOD = p - 1 := by
    have h1 : p + SIZE_MOD - 1 = (p - 1) + SIZE_MOD := by omega
    rw [h1, Nat.add_mod_right, Nat.mod_eq_of_lt (by rw [SIZE_MOD]; omega)]
  have hdrop : e.info.drop (p - 1) =
      e.info[p - 1] :: e.info.drop (p - 1 + 1) :=
    List.drop_eq_getElem_cons hplen
  have hswitch : get_switch_prev_state e = some [e.info[p - 1]] := by
    rw [get_switch_prev_state]
    simp only [hfind, Option.getD_some]
    rw [hmod, substr, if_pos (by omega), hdrop]
    rfl
  refine ⟨e.info[p - 1], ?_, hswitch, ?_⟩
  · exact List.getElem?_eq_getElem hplen
  · rw [get_longer_prev_state, hswitch]
    rfl

/-- C8 (witness): a concrete entry whose info string is `"S ==> next"`: the
marker sits at position 1, the extracted code is `'S'` and the long form is
`"S - sleeping"`. -/
theorem c8_prev_state_safe_witness :
    strFind SWMARK
        { stream_id := 0, event_id := 0, pid := 0, cpu := 0, visible := 0,
          info := "S ==> next".toList : KsEntry }.info 0 = some 1 ∧
    (1 : Nat) ≤ 1 ∧ (1 : Nat) < 2 ^ 64 ∧
    (∃ c,
      ({ stream_id := 0, event_id := 0, pid := 0, cpu := 0, visible := 0,
         info := "S ==> next".toList : KsEntry }).info[(1 : Nat) - 1]? =
        some c ∧
      get_switch_prev_state
        { stream_id := 0, event_id := 0, pid := 0, cpu := 0, visible := 0,
          info := "S ==> next".toList } = some [c] ∧
      get_longer_prev_state
        { stream_id := 0, event_id := 0, pid := 0, cpu := 0, visible := 0,
          info := "S ==> next".toList } =
        some ([c] ++ " - ".toList ++
          (match LETTER_TO_NAME.lookup c with
           | none => "unknown".toList
           | some n => n))) :=
  ⟨by decide, by decide, by norm_num,
    c8_prev_state_safe _ 1 (by decide) (by decide) (by norm_num)⟩

-- Embedding of `_trigon_area` and `SlTriangleButton::distance`
-- (`SlButton.cpp`, lines 121-127 and 274-296).  `ksplot_point` coordinates
-- are C `int`s; all the doubles computed from them (integer products and
-- sums well below 2^53, halved) are exact, so the `double` arithmetic of the
-- source is embedded as exact rational arithmetic.

/-- Host `ksplot_point`: a pair of integer plot coordinates. -/
structure KsplotPoint where
  x : Int
  y : Int

/-- Integer shoelace sum (twice the signed area) underlying
`_trigon_area`. -/
def shoelace (a b c : KsplotPoint) : Int :=
  a.x * (b.y - c.y) + b.x * (c.y - a.y) + c.x * (a.y - b.y)

/-- Embedding of `_trigon_area(a, b, c)`: the absolute value of the shoelace
sum divided by `2.0`. -/
def _trigon_area (a b c : KsplotPoint) : ℚ :=
  |((shoelace a b c : Int) : ℚ) / 2|

/-- Exact value of `std::numeric_limits<double>::max()`. -/
def DBL_MAX : ℚ := 2 ^ 1024 - 2 ^ 971

/-- Embedding of `SlTriangleButton::distance(x, y)`: `0` when the area of
the button's outline triangle equals the sum of the three sub-areas at the
query point, the maximal `double` otherwise. -/
def SlTriangleButton.distance (x y : Int) (a b c : KsplotPoint) : ℚ :=
  let p : KsplotPoint := ⟨x, y⟩
  let triangle_area := _trigon_area a b c
  let pbc_area := _trigon_area p b c
  let apc_area := _trigon_area a p c
  let abp_area := _trigon_area a b p
  let p_areas_sum := pbc_area + apc_area + abp_area
  if triangle_area = p_areas_sum then 0 else DBL_MAX

/-- Independent barycentric-coordinate classifier of the spec: the query
point is a convex combination of the three vertices. -/
def barycentricInside (a b c : KsplotPoint) (px py : Int) : Prop :=
  ∃ al be ga : ℚ, 0 ≤ al ∧ 0 ≤ be ∧ 0 ≤ ga ∧ al + be + ga = 1 ∧
    (px : ℚ) = al * a.x + be * b.x + ga * c.x ∧
    (py : ℚ) = al * a.y + be * b.y + ga * c.y

theorem shoelace_decomp (a b c p : KsplotPoint) :
    shoelace a b c = shoelace p b c + shoelace a p c + shoelace a b p := by
  simp only [shoelace]
  ring

theorem abs_sum_three_int (x y z : Int) :
    |x + y + z| = |x| + |y| + |z| ↔
      ((0 ≤ x ∧ 0 ≤ y ∧ 0 ≤ z) ∨ (x ≤ 0 ∧ y ≤ 0 ∧ z ≤ 0)) := by
  rw [Int.abs_eq_natAbs, Int.abs_eq_natAbs, Int.abs_eq_natAbs,
    Int.abs_eq_natAbs]
  omega

theorem trigon_area_eq (a b c : KsplotPoint) :
    _trigon_area a b c = ((|shoelace a b c| : Int) : ℚ) / 2 := by
  rw [_trigon_area, abs_div, abs_two, Int.cast_abs]

theorem areaEq_iff (a b c p : KsplotPoint) :
    (_trigon_area a b c =
      _trigon_area p b c + _trigon_area a p c + _trigon_area a b p) ↔
    |shoelace a b c| =
      |shoelace p b c| + |shoelace a p c| + |shoelace a b p| := by
  rw [trigon_area_eq, trigon_area_eq, trigon_area_eq, trigon_area_eq]
  constructor
  · intro h
    have h2 : ((|shoelace a b c| : Int) : ℚ) =
        ((|shoelace p b c| : Int) : ℚ) + ((|shoelace a p c| : Int) : ℚ)
          + ((|shoelace a b p| : Int) : ℚ) := by linarith
    exact_mod_cast h2
  · intro h
    have h2 : ((|shoelace a b c| : Int) : ℚ) =
        ((|shoelace p b c| : Int) : ℚ) + ((|shoelace a p c| : Int) : ℚ)
          + ((|shoelace a b p| : Int) : ℚ) := by exact_mod_cast h
    linarith

theorem bary_identity_x (a b c : KsplotPoint) (px py : Int) :
    px * shoelace a b c =
      shoelace ⟨px, py⟩ b c * a.x + shoelace a ⟨px, py⟩ c * b.x
        + shoelace a b ⟨px, py⟩ * c.x := by
  simp only [shoelace]
  ring

theorem bary_identity_y (a b c : KsplotPoint) (px py : Int) :
    py * shoelace a b c =
      shoelace ⟨px, py⟩ b c * a.y + shoelace a ⟨px, py⟩ c * b.y
        + shoelace a b ⟨px, py⟩ * c.y := by
  simp only [shoelace]
  ring

theorem samesign_iff_areaEq (a b c p : KsplotPoint) :
    (_trigon_area a b c =
      _trigon_area p b c + _trigon_area a p c + _trigon_area a b p) ↔
    ((0 ≤ shoelace p b c ∧ 0 ≤ shoelace a p c ∧ 0 ≤ shoelace a b p) ∨
     (shoelace p b c ≤ 0 ∧ shoelace a p c ≤ 0 ∧ shoelace a b p ≤ 0)) := by
  rw [areaEq_iff, shoelace_decomp a b c p, abs_sum_three_int]

theorem bary_coeff_s1 (a b c : KsplotPoint) (px py : Int) (al be ga : ℚ)
    (hsum : al + be + ga = 1)
    (hx : (px : ℚ) = al * a.x + be * b.x + ga * c.x)
    (hy : (py : ℚ) = al * a.y + be * b.y + ga * c.y) :
    (shoelace ⟨px, py⟩ b c : ℚ) = al * (shoelace a b c : ℚ) := by
  push_cast [shoelace]
  linear_combination ((b.y : ℚ) - c.y) * hx + ((c.x : ℚ) - b.x) * hy
    - ((b.x : ℚ) * c.y - (c.x : ℚ) * b.y) * hsum

theorem bary_coeff_s2 (a b c : KsplotPoint) (px py : Int) (al be ga : ℚ)
    (hsum : al + be + ga = 1)
    (hx : (px : ℚ) = al * a.x + be * b.x + ga * c.x)
    (hy : (py : ℚ) = al * a.y + be * b.y + ga * c.y) :
    (shoelace a ⟨px, py⟩ c : ℚ) = be * (shoelace a b c : ℚ) := by
  push_cast [shoelace]
  linear_combination ((c.y : ℚ) - a.y) * hx + ((a.x : ℚ) - c.x) * hy
    - ((c.x : ℚ) * a.y - (a.x : ℚ) * c.y) * hsum

theorem bary_coeff_s3 (a b c : KsplotPoint) (px py : Int) (al be ga : ℚ)
    (hsum : al + be + ga = 1)
    (hx : (px : ℚ) = al * a.x + be * b.x + ga * c.x)
    (hy : (py : ℚ) = al * a.y + be * b.y + ga * c.y) :
    (shoelace a b ⟨px, py⟩ : ℚ) = ga * (shoelace a b c : ℚ) := by
  push_cast [shoelace]
  linear_combination ((a.y : ℚ) - b.y) * hx + ((b.x : ℚ) - a.x) * hy
    - ((a.x : ℚ) * b.y - (b.x : ℚ) * a.y) * hsum

/-- C4: for every query point and triangle with nonzero shoelace sum
(non-degenerate), the hit test classifies the point as inside — returning
distance 0 — exactly when the unsigned shoelace area of the triangle equals
the sum of the three unsigned sub-areas under exact equality, which in turn
holds exactly when the independent barycentric-coordinate classifier puts
the point in the closed triangle (strictly inside or on an edge); otherwise
the returned distance is the maximal `double` value. -/
theorem c4_distance_barycentric (x y : Int) (a b c : KsplotPoint)
    (hnd : shoelace a b c ≠ 0) :
    (SlTriangleButton.distance x y a b c = 0 ↔
      _trigon_area a b c =
        _trigon_area ⟨x, y⟩ b c + _trigon_area a ⟨x, y⟩ c
          + _trigon_area a b ⟨x, y⟩) ∧
    (SlTriangleButton.distance x y a b c = 0 ↔
      barycentricInside a b c x y) ∧
    (SlTriangleButton.distance x y a b c ≠ 0 →
      SlTriangleButton.distance x y a b c = DBL_MAX) := by
  have hDBL : DBL_MAX ≠ 0 := by
    rw [DBL_MAX]
    norm_num
  have hdist : SlTriangleButton.distance x y a b c =
      (if _trigon_area a b c =
          _trigon_area ⟨x, y⟩ b c + _trigon_area a ⟨x, y⟩ c
            + _trigon_area a b ⟨x, y⟩
       then (0 : ℚ) else DBL_MAX) := rfl
  have hSQ : ((shoelace a b c : Int) : ℚ) ≠ 0 := Int.cast_ne_zero.mpr hnd
  have part1 : SlTriangleButton.distance x y a b c = 0 ↔
      _trigon_area a b c =
        _trigon_area ⟨x, y⟩ b c + _trigon_area a ⟨x, y⟩ c
          + _trigon_area a b ⟨x, y⟩ := by
    rw [hdist]
    by_cases hc : _trigon_area a b c =
        _trigon_area ⟨x, y⟩ b c + _trigon_area a ⟨x, y⟩ c
          + _trigon_area a b ⟨x, y⟩
    · simp [hc]
    · simp [hc, hDBL]
  refine ⟨part1, ?_, ?_⟩
  · rw [part1, samesign_iff_areaEq]
    constructor
    · -- same sign of the three sub-areas gives barycentric coordinates
      intro hss
      have hdec := shoelace_decomp a b c ⟨x, y⟩
      rcases lt_or_gt_of_ne hnd with hSneg | hSpos
      · have hall : shoelace ⟨x, y⟩ b c ≤ 0 ∧ shoelace a ⟨x, y⟩ c ≤ 0 ∧
            shoelace a b ⟨x, y⟩ ≤ 0 := by
          rcases hss with h | h
          · exfalso
            omega
          · exact h
        refine ⟨(shoelace ⟨x, y⟩ b c : ℚ) / (shoelace a b c : ℚ),
          (shoelace a ⟨x, y⟩ c : ℚ) / (shoelace a b c : ℚ),
          (shoelace a b ⟨x, y⟩ : ℚ) / (shoelace a b c : ℚ), ?_, ?_, ?_, ?_, ?_, ?_⟩
        · exact div_nonneg_iff.mpr (Or.inr
            ⟨by exact_mod_cast hall.1, by exact_mod_cast hSneg.le⟩)
        · exact div_nonneg_iff.mpr (Or.inr
            ⟨by exact_mod_cast hall.2.1, by exact_mod_cast hSneg.le⟩)
        · exact div_nonneg_iff.mpr (Or.inr
            ⟨by exact_mod_cast hall.2.2, by exact_mod_cast hSneg.le⟩)
        · rw [div_add_div_same, div_add_div_same, div_eq_one_iff_eq hSQ]
          exact_mod_cast hdec.symm
        · rw [div_mul_eq_mul_div, div_mul_eq_mul_div, div_mul_eq_mul_div,
            div_add_div_same, div_add_div_same, eq_div_iff hSQ]
          exact_mod_cast bary_identity_x a b c x y
        · rw [div_mul_eq_mul_div, div_mul_eq_mul_div, div_mul_eq_mul_div,
            div_add_div_same, div_add_div_same, eq_div_iff hSQ]
          exact_mod_cast bary_identity_y a b c x y
      · have hall : 0 ≤ shoelace ⟨x, y⟩ b c ∧ 0 ≤ shoelace a ⟨x, y⟩ c ∧
            0 ≤ shoelace a b ⟨x, y⟩ := by
          rcases hss with h | h
          · exact h
          · exfalso
            omega
        refine ⟨(shoelace ⟨x, y⟩ b c : ℚ) / (shoelace a b c : ℚ),
          (shoelace a ⟨x, y⟩ c : ℚ) / (shoelace a b c : ℚ),
          (shoelace a b ⟨x, y⟩ : ℚ) / (shoelace a b c : ℚ), ?_, ?_, ?_, ?_, ?_, ?_⟩
        · exact div_nonneg (by exact_mod_cast hall.1) (by exact_mod_cast hSpos.le)
        · exact div_nonneg (by exact_mod_cast hall.2.1)
            (by exact_mod_cast hSpos.le)
        · exact div_nonneg (by exact_mod_cast hall.2.2)
            (by exact_mod_cast hSpos.le)
        · rw [div_add_div_same, div_add_div_same, div_eq_one_iff_eq hSQ]
          exact_mod_cast hdec.symm
        · rw [div_mul_eq_mul_div, div_mul_eq_mul_div, div_mul_eq_mul_div,
            div_add_div_same, div_add_div_same, eq_div_iff hSQ]
          exact_mod_cast bary_identity_x a b c x y
        · rw [div_mul_eq_mul_div, div_mul_eq_mul_div, div_mul_eq_mul_div,
            div_add_div_same, div_add_div_same, eq_div_iff hSQ]
          exact_mod_cast bary_identity_y a b c x y
    · -- barycentric coordinates force the three sub-areas to share a sign
      rintro ⟨al, be, ga, hal, hbe, hga, hsum, hx, hy⟩
      have h1 := bary_coeff_s1 a b c x y al be ga hsum hx hy
      have h2 := bary_coeff_s2 a b c x y al be ga hsum hx hy
      have h3 := bary_coeff_s3 a b c x y al be ga hsum hx hy
      rcases lt_or_gt_of_ne hnd with hSneg | hSpos
      · right
        have hSQle : ((shoelace a b c : Int) : ℚ) ≤ 0 := by
          exact_mod_cast hSneg.le
        refine ⟨?_, ?_, ?_⟩
        · have : (shoelace ⟨x, y⟩ b c : ℚ) ≤ 0 := by
            rw [h1]
            exact mul_nonpos_of_nonneg_of_nonpos hal hSQle
          exact_mod_cast this
        · have : (shoelace a ⟨x, y⟩ c : ℚ) ≤ 0 := by
            rw [h2]
            exact mul_nonpos_of_nonneg_of_nonpos hbe hSQle
          exact_mod_cast this
        · have : (shoelace a b ⟨x, y⟩ : ℚ) ≤ 0 := by
            rw [h3]
            exact mul_nonpos_of_nonneg_of_nonpos hga hSQle
          exact_mod_cast this
      · left
        have hSQge : 0 ≤ ((shoelace a b c : Int) : ℚ) := by
          exact_mod_cast hSpos.le
        refine ⟨?_, ?_, ?_⟩
        · have : 0 ≤ (shoelace ⟨x, y⟩ b c : ℚ) := by
            rw [h1]
            exact mul_nonneg hal hSQge
          exact_mod_cast this
        · have : 0 ≤ (shoelace a ⟨x, y⟩ c : ℚ) := by
            rw [h2]
            exact mul_nonneg hbe hSQge
          exact_mod_cast this
        · have : 0 ≤ (shoelace a b ⟨x, y⟩ : ℚ) := by
            rw [h3]
            exact mul_nonneg hga hSQge
          exact_mod_cast this
  · intro hne
    rw [hdist] at hne ⊢
    by_cases hc : _trigon_area a b c =
        _trigon_area ⟨x, y⟩ b c + _trigon_area a ⟨x, y⟩ c
          + _trigon_area a b ⟨x, y⟩
    · rw [if_pos hc] at hne
      exact absurd rfl hne
    · rw [if_neg hc]

/-- C4 (witness): the unit right triangle `(0,0), (4,0), (0,4)` has nonzero
shoelace sum, and its edge midpoint `(2,2)` is classified inside, agreeing
with the barycentric classifier. -/
theorem c4_distance_barycentric_witness :
    shoelace ⟨0, 0⟩ ⟨4, 0⟩ ⟨0, 4⟩ ≠ 0 ∧
    (SlTriangleButton.distance 2 2 ⟨0, 0⟩ ⟨4, 0⟩ ⟨0, 4⟩ = 0 ↔
      barycentricInside ⟨0, 0⟩ ⟨4, 0⟩ ⟨0, 4⟩ 2 2) :=
  ⟨by decide, (c4_distance_barycentric 2 2 ⟨0, 0⟩ ⟨4, 0⟩ ⟨0, 4⟩ (by decide)).2.1⟩

end Stacklook
